import Mathlib

/-!
Shallow embedding of the Mobile-IP-style registration and mobility program
(`main.py`): cryptographic helpers, the shared address pool, the registration
request, the mobile node / foreign agent / home agent protocol objects, and the
mesh-topology rebuild over the home-agent registry.

Randomness is embedded explicitly: `secrets.token_hex(16)` becomes a supply of
fresh tokens threaded through the constructors that draw from it, and
`secrets.randbelow(255)` inside `assign_ip` becomes a list of draws supplied to
the retry loop.  External effects (the `route` subprocess inside
`NetworkHelper.add_route`, whose errors the code catches and only prints) are
embedded as a boolean outcome parameter that the protocol logic receives but
never branches on.
-/

namespace MobileNet

/-- `CryptographicHelper.generate_hash`: `hashlib.sha256(data.encode()).hexdigest()`.
SHA-256 is embedded symbolically as an injective deterministic digest function
(the idealized collision-free hash); every claim below uses only determinism of
the digest, never its internal structure. -/
def generate_hash (data : String) : String :=
  "sha256:" ++ data

/-- `CryptographicHelper.generate_hmac`: `hmac.new(key, data, sha256).hexdigest()`,
embedded symbolically as a deterministic keyed tag. -/
def generate_hmac (key data : String) : String :=
  "hmac:" ++ key ++ ":" ++ data

/-- State of the random-token supply backing `secrets.token_hex(16)`: a counter
of how many tokens have been drawn so far. -/
structure NonceGen where
  counter : Nat
deriving DecidableEq

/-- `CryptographicHelper.generate_nonce`: `secrets.token_hex(16)`, embedded as a
draw from the fresh-token supply; distinct draws yield distinct tokens
(idealized no-collision randomness of a 128-bit token). -/
def generate_nonce (g : NonceGen) : String × NonceGen :=
  (String.mk (List.replicate (g.counter + 1) 'n'), ⟨g.counter + 1⟩)

/-! ### Python-dict association lists

`HomeAgent.bindings`, `ha_registry` and the entity-class table are Python
dicts; we embed them as association lists with dict update semantics
(`d[k] = v` replaces in place, `del d[k]` removes the entry). -/

/-- Lookup `d[k]` (first matching key). -/
def dictLookup {α : Type} : List (String × α) → String → Option α
  | [], _ => none
  | (k, v) :: rest, key => if k = key then some v else dictLookup rest key

/-- Assignment `d[key] = v`: replaces the entry in place when the key is
present, appends it otherwise (Python dict semantics). -/
def dictInsert {α : Type} : List (String × α) → String → α → List (String × α)
  | [], key, v => [(key, v)]
  | (k, w) :: rest, key, v =>
      if k = key then (key, v) :: rest else (k, w) :: dictInsert rest key v

/-- Deletion `del d[key]`: removes the first entry with the key. -/
def dictErase {α : Type} : List (String × α) → String → List (String × α)
  | [], _ => []
  | (k, w) :: rest, key => if k = key then rest else (k, w) :: dictErase rest key

/-- The keys of a dict, in insertion order. -/
def dictKeys {α : Type} (d : List (String × α)) : List String :=
  d.map Prod.fst

/-! ### NetworkHelper: the shared address pool

`NetworkHelper.assigned_ips` is one process-wide set shared by all three entity
classes; we embed it as a duplicate-free list of address strings.
`assign_ip` retries `secrets.randbelow(255)` draws until an unheld address is
found; the draws are supplied explicitly as a list (each finite list is one
finite prefix of the retry loop's random stream — the loop has no other exit,
so a `none` result means the loop is still running after that many draws). -/

/-- The `network_id_map` dict inside `NetworkHelper.assign_ip`. -/
def network_id_map : List (String × String) :=
  [("mn", "10.1.0"), ("fa", "192.168.2"), ("ha", "192.168.1")]

/-- The address format string `f"{network_id}.{secrets.randbelow(255)}"`. -/
def mk_ip (network_id : String) (k : Nat) : String :=
  network_id ++ "." ++ toString k

/-- The `while True` retry loop of `NetworkHelper.assign_ip`: try each random
draw in turn (`secrets.randbelow(255)` yields a value `< 255`, embedded as
`d % 255`); when the formed address is not currently held, mark it held and
return it.  `none` means every supplied draw hit a held address, i.e. the loop
is still spinning after that prefix of the random stream. -/
def assign_ip_loop (network_id : String) (assigned : List String) :
    List Nat → Option (String × List String)
  | [] => none
  | d :: ds =>
      let ip := mk_ip network_id (d % 255)
      if ip ∈ assigned then assign_ip_loop network_id assigned ds
      else some (ip, ip :: assigned)

/-- `NetworkHelper.release_ip`: remove the address if held, otherwise report
and leave the pool unchanged. -/
def release_ip (assigned : List String) (ip : String) : List String :=
  if ip ∈ assigned then assigned.erase ip else assigned

/-- One call against the shared pool: an `assign_ip(entity_type)` call
(with its stream of random draws) or a `release_ip(ip)` call. -/
inductive PoolOp : Type
  | assign : String → List Nat → PoolOp
  | release : String → PoolOp

/-- Effect of one pool call on the `assigned_ips` set.  An unknown entity type
raises `ValueError` before touching the pool; a retry loop that has not yet
returned has added nothing to the pool. -/
def run_op (assigned : List String) : PoolOp → List String
  | .assign entity_type draws =>
      match dictLookup network_id_map entity_type with
      | none => assigned
      | some network_id =>
          match assign_ip_loop network_id assigned draws with
          | some (_, assigned') => assigned'
          | none => assigned
  | .release ip => release_ip assigned ip

/-- Effect of a sequence of pool calls. -/
def run_ops (assigned : List String) : List PoolOp → List String
  | [] => assigned
  | op :: ops => run_ops (run_op assigned op) ops

/-! ### Registration protocol objects

`Registration.data` is the dict `{temp_identity, nonce_mn, coa}`; its fields
are flattened here.  `target` holds the target home agent's identity (the
Python object reference), and `nonce` is the foreign-agent nonce set by
`Registration.add_nonce` in transit (`None` before that).
`MobileNode.temp_identity` is `None` until `initiate_registration` (or a move)
computes it, so a request can carry `none` in that slot, which never equals a
digest. -/

structure Registration where
  request_type : String
  target : String
  temp_identity : Option String
  nonce_mn : String
  coa : String
  nonce : Option String
deriving DecidableEq

/-- `Registration.add_nonce`. -/
def add_nonce (registration : Registration) (n : String) : Registration :=
  { registration with nonce := some n }

/-- The binding dict stored by `HomeAgent.process_registration`. -/
structure Binding where
  temp_identity : Option String
  shared_key_mn_fa : String
  nonce_ha : String
  coa : String
  foreign_agent : String
deriving DecidableEq

structure MobileNode where
  identity : String
  shared_key_mn_ha : Option String
  temp_identity : Option String
  nonce_mn : String
  coa : String
  home_agent : String
  original_ha : String
deriving DecidableEq

structure ForeignAgent where
  identity : String
  ip_address : String
  nonce_fa : String
deriving DecidableEq

structure HomeAgent where
  identity : String
  ip_address : String
  shared_key_mn_ha : String
  nonce_ha : String
  bindings : List (String × Binding)
  peers : List String
deriving DecidableEq

/-- `MobileNode.__init__`: the node's nonce is drawn at construction; the COA
comes from `NetworkHelper.assign_ip("mn")` and is passed in as the drawn
address; `original_ha` starts out equal to `home_agent`. -/
def mkMobileNode (identity : String) (coa : String) (home_agent : String)
    (g : NonceGen) : MobileNode × NonceGen :=
  let n := (generate_nonce g).1
  let g' := (generate_nonce g).2
  ({ identity := identity, shared_key_mn_ha := none, temp_identity := none,
     nonce_mn := n, coa := coa, home_agent := home_agent,
     original_ha := home_agent }, g')

/-- `ForeignAgent.__init__`: the relay's nonce is drawn once at construction;
the IP is the given address (or the one drawn from `assign_ip("fa")`, passed
in as the drawn value). -/
def mkForeignAgent (identity : String) (ip_address : String)
    (g : NonceGen) : ForeignAgent × NonceGen :=
  let n := (generate_nonce g).1
  let g' := (generate_nonce g).2
  ({ identity := identity, ip_address := ip_address, nonce_fa := n }, g')

/-- `HomeAgent.__init__`: the shared secret is the constant string
`"shared_secret_mn_ha"` for every authority; the authority's own nonce is
drawn once at construction; bindings and peers start empty. -/
def mkHomeAgent (identity : String) (ip_address : String)
    (g : NonceGen) : HomeAgent × NonceGen :=
  let n := (generate_nonce g).1
  let g' := (generate_nonce g).2
  ({ identity := identity, ip_address := ip_address,
     shared_key_mn_ha := "shared_secret_mn_ha", nonce_ha := n,
     bindings := [], peers := [] }, g')

/-- `HomeAgent.process_registration(fa, mn, registration)`.  The first result
component is the home agent after the call (the Python object is mutated only
on the success path); the second is the returned value: on success the stored
binding together with the outcome of the `NetworkHelper.add_route(mn.coa,
self.ip_address)` call (the subprocess result, embedded as the parameter
`route_result`; `add_route` catches every exception and only prints, so the
method never branches on it), and on mismatch the `Exception("Invalid
registration data")` that the method raises before touching `bindings`. -/
def process_registration (route_result : Bool) (ha : HomeAgent)
    (fa : ForeignAgent) (mn : MobileNode) (registration : Registration) :
    HomeAgent × Except String (Binding × Bool) :=
  if registration.temp_identity
      = some (generate_hash (mn.identity ++ registration.nonce_mn)) then
    let shared_key_mn_fa := generate_hmac ha.shared_key_mn_ha
      (registration.nonce_mn ++ ha.nonce_ha ++ fa.identity)
    let binding : Binding :=
      { temp_identity := registration.temp_identity,
        shared_key_mn_fa := shared_key_mn_fa,
        nonce_ha := ha.nonce_ha,
        coa := registration.coa,
        foreign_agent := fa.ip_address }
    let ha' := { ha with bindings := dictInsert ha.bindings mn.identity binding }
    (ha', Except.ok (binding, route_result))
  else
    (ha, Except.error "Invalid registration data")

/-- The `"status": "success"` test on a registration response. -/
def regSuccess (response : Except String (Binding × Bool)) : Bool :=
  match response with
  | Except.ok _ => true
  | Except.error _ => false

/-- `ForeignAgent.handle_registration_request`: stamp the request with the
relay's stored nonce and delegate to the target home agent. -/
def handle_registration_request (route_result : Bool) (fa : ForeignAgent)
    (ha : HomeAgent) (mn : MobileNode) (registration : Registration) :
    HomeAgent × Except String (Binding × Bool) :=
  process_registration route_result ha fa mn (add_nonce registration fa.nonce_fa)

/-- `MobileNode.initiate_registration(ha, fa)`: compute the temporary identity
from the node's current nonce, build a `"registration"` request, and hand it to
the foreign agent.  Returns the updated node, the updated home agent, and the
response. -/
def initiate_registration (route_result : Bool) (mn : MobileNode)
    (ha : HomeAgent) (fa : ForeignAgent) :
    MobileNode × HomeAgent × Except String (Binding × Bool) :=
  let mn' := { mn with
    temp_identity := some (generate_hash (mn.identity ++ mn.nonce_mn)) }
  let registration : Registration :=
    { request_type := "registration", target := ha.identity,
      temp_identity := mn'.temp_identity, nonce_mn := mn'.nonce_mn,
      coa := mn'.coa, nonce := none }
  let pr := handle_registration_request route_result fa ha mn' registration
  (mn', pr.1, pr.2)

/-- The home agents live in the `ha_registry` dict, keyed by identity. -/
abbrev HARegistry := List (String × HomeAgent)

/-- Result of `MobileNode.re_register_with_original_ha(fa)`: the
`"re-registration"` request it builds, the registry after the original home
agent processed it, and the response. -/
structure ReRegOutcome where
  request : Registration
  registry : HARegistry
  response : Except String (Binding × Bool)

/-- `MobileNode.re_register_with_original_ha(fa)`: build a `"re-registration"`
request from the node's current temp identity, nonce and COA, and route it
through the given foreign agent to the node's original home agent.  The
original home agent is held by reference in Python; here it is fetched from,
and stored back into, the registry under `mn.original_ha` (the fetch cannot
fail in the program, where every node's original authority is registered). -/
def re_register_with_original_ha (route_result : Bool) (mn : MobileNode)
    (fa : ForeignAgent) (registry : HARegistry) : ReRegOutcome :=
  let registration : Registration :=
    { request_type := "re-registration", target := mn.original_ha,
      temp_identity := mn.temp_identity, nonce_mn := mn.nonce_mn,
      coa := mn.coa, nonce := none }
  let registry' : HARegistry :=
    match dictLookup registry mn.original_ha with
    | none => registry
    | some ha =>
        dictInsert registry mn.original_ha
          (handle_registration_request route_result fa ha mn registration).1
  let response : Except String (Binding × Bool) :=
    match dictLookup registry mn.original_ha with
    | none => Except.error "original home agent not in registry"
    | some ha => (handle_registration_request route_result fa ha mn registration).2
  { request := registration, registry := registry', response := response }

/-- Result of `MobileNode.move_to_new_network(ha, fa)`: the node after the
move, the nonce supply after the fresh draw, the two requests issued (the
`"registration"` to the new authority and the `"re-registration"` to the
original one), the registry after both authorities processed them, and the two
responses. -/
structure MoveOutcome where
  mn : MobileNode
  gen : NonceGen
  request : Registration
  reRequest : Registration
  registry : HARegistry
  response : Except String (Binding × Bool)
  reResponse : Except String (Binding × Bool)

/-- `MobileNode.move_to_new_network(ha, fa)`: acquire a new COA (the address
drawn by `assign_ip("mn")`, passed in as `new_coa`), switch `home_agent` to the
new authority, draw a fresh nonce, recompute the temporary identity, build the
`"registration"` request for the new authority, first re-register with the
original home agent, then hand the request to the foreign agent for the new
authority.  `route_re` and `route_new` are the outcomes of the two `add_route`
calls. -/
def move_to_new_network (g : NonceGen) (new_coa : String)
    (route_re route_new : Bool) (mn : MobileNode) (new_ha_id : String)
    (fa : ForeignAgent) (registry : HARegistry) : MoveOutcome :=
  let n := (generate_nonce g).1
  let g' := (generate_nonce g).2
  let mn' := { mn with
    coa := new_coa, home_agent := new_ha_id, nonce_mn := n,
    temp_identity := some (generate_hash (mn.identity ++ n)) }
  let registration : Registration :=
    { request_type := "registration", target := new_ha_id,
      temp_identity := mn'.temp_identity, nonce_mn := mn'.nonce_mn,
      coa := mn'.coa, nonce := none }
  let re := re_register_with_original_ha route_re mn' fa registry
  let registry2 : HARegistry :=
    match dictLookup re.registry new_ha_id with
    | none => re.registry
    | some ha =>
        dictInsert re.registry new_ha_id
          (handle_registration_request route_new fa ha mn' registration).1
  let response2 : Except String (Binding × Bool) :=
    match dictLookup re.registry new_ha_id with
    | none => Except.error "new home agent not in registry"
    | some ha => (handle_registration_request route_new fa ha mn' registration).2
  { mn := mn', gen := g', request := registration, reRequest := re.request,
    registry := registry2, response := response2, reResponse := re.response }

/-- The binding-cleanup step of `move_mobile_node` after
`mn.move_to_new_network` returns: if the node held a binding at the authority
it was attached to before the move and that authority is not the node's
original one, that binding is deleted; otherwise it is retained. -/
def move_cleanup (registry : HARegistry) (old_ha_id : String)
    (original_ha_id : String) (mn_id : String) : HARegistry :=
  match dictLookup registry old_ha_id with
  | none => registry
  | some old_ha =>
      if (dictLookup old_ha.bindings mn_id).isSome ∧ old_ha_id ≠ original_ha_id then
        dictInsert registry old_ha_id
          { old_ha with bindings := dictErase old_ha.bindings mn_id }
      else
        registry

/-- `create_mesh_topology()`: every home agent's peer set is replaced by the
identities of all the other home agents in the registry. -/
def create_mesh_topology (registry : HARegistry) : HARegistry :=
  registry.map (fun p =>
    (p.1, { p.2 with peers := (dictKeys registry).filter (fun q => q ≠ p.1) }))

/-! ### Concrete fixtures

Sample entities mirroring the registries the program sets up at module load
(`HA123`, `FA123`, a node `MN1`), used to instantiate the theorems below at
concrete inputs. -/

def haW : HomeAgent := (mkHomeAgent "HA123" "192.168.1.1" ⟨0⟩).1

def haW2 : HomeAgent := (mkHomeAgent "HA456" "192.168.1.2" ⟨3⟩).1

def faW : ForeignAgent := (mkForeignAgent "FA123" "192.168.2.1" ⟨1⟩).1

def mnW : MobileNode := (mkMobileNode "MN1" "10.1.0.7" "HA123" ⟨2⟩).1

def regGoodW : Registration :=
  { request_type := "registration", target := "HA123",
    temp_identity := some (generate_hash (mnW.identity ++ mnW.nonce_mn)),
    nonce_mn := mnW.nonce_mn, coa := mnW.coa, nonce := none }

def regBadW : Registration :=
  { regGoodW with temp_identity := none }

def bW : Binding :=
  { temp_identity := regGoodW.temp_identity,
    shared_key_mn_fa := generate_hmac haW.shared_key_mn_ha
      (regGoodW.nonce_mn ++ haW.nonce_ha ++ faW.identity),
    nonce_ha := haW.nonce_ha, coa := regGoodW.coa,
    foreign_agent := faW.ip_address }

def registryW : HARegistry := [("HA123", haW), ("HA456", haW2)]

def hAW' : HomeAgent := { haW with peers := ["HA456"] }

def hBW' : HomeAgent := { haW2 with peers := ["HA123"] }

def regW1 : Registration :=
  { request_type := "registration", target := "HA123",
    temp_identity := none, nonce_mn := "n1", coa := "10.1.0.5", nonce := none }

def regW2 : Registration :=
  { regW1 with nonce_mn := "n2" }

/-! ## Theorems -/

theorem generate_nonce_injective (g₁ g₂ : NonceGen)
    (h : (generate_nonce g₁).1 = (generate_nonce g₂).1) : g₁ = g₂ := by
  cases g₁ with
  | mk c₁ =>
    cases g₂ with
    | mk c₂ =>
      have hd : List.replicate (c₁ + 1) 'n' = List.replicate (c₂ + 1) 'n' :=
        congrArg String.data h
      have hlen := congrArg List.length hd
      simp only [List.length_replicate] at hlen
      have hc : c₁ = c₂ := Nat.succ_injective hlen
      simp [hc]

theorem dictKeys_cons {α : Type} (p : String × α) (tl : List (String × α)) :
    dictKeys (p :: tl) = p.1 :: dictKeys tl := rfl

theorem dictLookup_insert_self {α : Type} (d : List (String × α)) (k : String) (v : α) :
    dictLookup (dictInsert d k v) k = some v := by
  induction d with
  | nil => simp [dictInsert, dictLookup]
  | cons hd tl ih =>
    obtain ⟨k₀, w⟩ := hd
    by_cases hk : k₀ = k
    · simp [dictInsert, hk, dictLookup]
    · simp only [dictInsert, if_neg hk, dictLookup]
      exact ih

theorem dictLookup_insert_ne {α : Type} (d : List (String × α)) (k k' : String) (v : α)
    (h : k' ≠ k) : dictLookup (dictInsert d k v) k' = dictLookup d k' := by
  have hne : ¬(k = k') := fun hh => h hh.symm
  induction d with
  | nil => simp [dictInsert, dictLookup, hne]
  | cons hd tl ih =>
    obtain ⟨k₀, w⟩ := hd
    by_cases hk : k₀ = k
    · subst hk
      simp [dictInsert, dictLookup, hne]
    · simp only [dictInsert, if_neg hk, dictLookup]
      by_cases hk' : k₀ = k'
      · simp [hk']
      · simp [hk', ih]

theorem dictKeys_insert_mem {α : Type} (d : List (String × α)) (k : String) (v : α)
    (h : k ∈ dictKeys d) : dictKeys (dictInsert d k v) = dictKeys d := by
  induction d with
  | nil => simp [dictKeys] at h
  | cons hd tl ih =>
    obtain ⟨k₀, w⟩ := hd
    by_cases hk : k₀ = k
    · simp only [dictInsert, if_pos hk, dictKeys_cons]
      simp [hk]
    · have hmem : k ∈ dictKeys tl := by
        have hcases : k = k₀ ∨ k ∈ dictKeys tl := by simpa [dictKeys_cons] using h
        rcases hcases with h1 | h1
        · exact absurd h1.symm hk
        · exact h1
      simp only [dictInsert, if_neg hk, dictKeys_cons, ih hmem]

theorem dictKeys_insert_not_mem {α : Type} (d : List (String × α)) (k : String) (v : α)
    (h : k ∉ dictKeys d) : dictKeys (dictInsert d k v) = dictKeys d ++ [k] := by
  induction d with
  | nil => simp [dictInsert, dictKeys]
  | cons hd tl ih =>
    obtain ⟨k₀, w⟩ := hd
    have hk : k₀ ≠ k := by
      intro hh
      exact h (by simp [dictKeys_cons, hh])
    have htl : k ∉ dictKeys tl := by
      intro hh
      exact h (by simp [dictKeys_cons]; exact Or.inr hh)
    simp only [dictInsert, if_neg hk, dictKeys_cons, ih htl, List.cons_append]

theorem dictKeys_insert_nodup {α : Type} (d : List (String × α)) (k : String) (v : α)
    (h : (dictKeys d).Nodup) : (dictKeys (dictInsert d k v)).Nodup := by
  by_cases hmem : k ∈ dictKeys d
  · rw [dictKeys_insert_mem d k v hmem]; exact h
  · rw [dictKeys_insert_not_mem d k v hmem]
    simpa [List.nodup_append] using ⟨h, hmem⟩

theorem dictKeys_erase_sublist {α : Type} (d : List (String × α)) (k : String) :
    List.Sublist (dictKeys (dictErase d k)) (dictKeys d) := by
  induction d with
  | nil => simp [dictErase]
  | cons hd tl ih =>
    obtain ⟨k₀, w⟩ := hd
    by_cases hk : k₀ = k
    · simp only [dictErase, if_pos hk, dictKeys_cons]
      exact List.Sublist.cons _ (List.Sublist.refl _)
    · simp only [dictErase, if_neg hk, dictKeys_cons]
      exact List.Sublist.cons₂ _ ih

theorem dictKeys_erase_nodup {α : Type} (d : List (String × α)) (k : String)
    (h : (dictKeys d).Nodup) : (dictKeys (dictErase d k)).Nodup :=
  (dictKeys_erase_sublist d k).nodup h

theorem assign_ip_loop_fresh (network_id : String) (assigned : List String)
    (draws : List Nat) (ip : String) (assigned' : List String)
    (h : assign_ip_loop network_id assigned draws = some (ip, assigned')) :
    ip ∉ assigned ∧ assigned' = ip :: assigned := by
  induction draws with
  | nil => simp [assign_ip_loop] at h
  | cons d ds ih =>
    simp only [assign_ip_loop] at h
    by_cases hmem : mk_ip network_id (d % 255) ∈ assigned
    · exact ih (by simpa [hmem] using h)
    · have hpair : mk_ip network_id (d % 255) = ip ∧
          mk_ip network_id (d % 255) :: assigned = assigned' := by
        simpa [hmem] using h
      obtain ⟨hip, hassigned⟩ := hpair
      subst hip
      exact ⟨hmem, hassigned.symm⟩

theorem run_op_nodup (assigned : List String) (op : PoolOp)
    (h : assigned.Nodup) : (run_op assigned op).Nodup := by
  cases op with
  | assign entity_type draws =>
    simp only [run_op]
    cases hlk : dictLookup network_id_map entity_type with
    | none => simp only [hlk]; exact h
    | some network_id =>
      simp only [hlk]
      cases hloop : assign_ip_loop network_id assigned draws with
      | none => simp only [hloop]; exact h
      | some pair =>
        obtain ⟨ip, assigned'⟩ := pair
        simp only [hloop]
        obtain ⟨hfresh, heq⟩ := assign_ip_loop_fresh network_id assigned draws ip assigned' hloop
        subst heq
        exact List.Nodup.cons hfresh h
  | release ip =>
    simp only [run_op, release_ip]
    by_cases hmem : ip ∈ assigned
    · simpa [hmem] using h.erase ip
    · simpa [hmem] using h

theorem run_ops_nodup (ops : List PoolOp) (assigned : List String)
    (h : assigned.Nodup) : (run_ops assigned ops).Nodup := by
  induction ops generalizing assigned with
  | nil => exact h
  | cons op ops ih => exact ih (run_op assigned op) (run_op_nodup assigned op h)

theorem process_registration_ok_elim (route_result : Bool) (ha : HomeAgent)
    (fa : ForeignAgent) (mn : MobileNode) (registration : Registration)
    (b : Binding) (r : Bool)
    (h : (process_registration route_result ha fa mn registration).2
      = Except.ok (b, r)) :
    registration.temp_identity
      = some (generate_hash (mn.identity ++ registration.nonce_mn)) ∧
    b = { temp_identity := registration.temp_identity,
          shared_key_mn_fa := generate_hmac ha.shared_key_mn_ha
            (registration.nonce_mn ++ ha.nonce_ha ++ fa.identity),
          nonce_ha := ha.nonce_ha, coa := registration.coa,
          foreign_agent := fa.ip_address } ∧
    r = route_result ∧
    (process_registration route_result ha fa mn registration).1
      = { ha with bindings := dictInsert ha.bindings mn.identity b } := by
  by_cases hc : registration.temp_identity
      = some (generate_hash (mn.identity ++ registration.nonce_mn))
  · refine ⟨hc, ?_⟩
    simp only [process_registration, if_pos hc, Except.ok.injEq, Prod.mk.injEq] at h
    obtain ⟨hb, hr⟩ := h
    subst hb
    subst hr
    refine ⟨rfl, rfl, ?_⟩
    simp [process_registration, if_pos hc]
  · simp [process_registration, hc] at h

theorem process_registration_mismatch (route_result : Bool) (ha : HomeAgent)
    (fa : ForeignAgent) (mn : MobileNode) (registration : Registration)
    (hc : registration.temp_identity
      ≠ some (generate_hash (mn.identity ++ registration.nonce_mn))) :
    process_registration route_result ha fa mn registration
      = (ha, Except.error "Invalid registration data") := by
  simp [process_registration, hc]

theorem process_registration_store (route_result : Bool) (ha : HomeAgent)
    (fa : ForeignAgent) (mn : MobileNode) (registration : Registration)
    (hc : registration.temp_identity
      = some (generate_hash (mn.identity ++ registration.nonce_mn))) :
    dictLookup (process_registration route_result ha fa mn registration).1.bindings
      mn.identity
      = some { temp_identity := registration.temp_identity,
               shared_key_mn_fa := generate_hmac ha.shared_key_mn_ha
                 (registration.nonce_mn ++ ha.nonce_ha ++ fa.identity),
               nonce_ha := ha.nonce_ha, coa := registration.coa,
               foreign_agent := fa.ip_address } := by
  simp only [process_registration, if_pos hc]
  exact dictLookup_insert_self _ _ _

theorem handle_registration_store (route_result : Bool) (fa : ForeignAgent)
    (ha : HomeAgent) (mn : MobileNode) (registration : Registration)
    (hc : registration.temp_identity
      = some (generate_hash (mn.identity ++ registration.nonce_mn))) :
    dictLookup
      (handle_registration_request route_result fa ha mn registration).1.bindings
      mn.identity
      = some { temp_identity := registration.temp_identity,
               shared_key_mn_fa := generate_hmac ha.shared_key_mn_ha
                 (registration.nonce_mn ++ ha.nonce_ha ++ fa.identity),
               nonce_ha := ha.nonce_ha, coa := registration.coa,
               foreign_agent := fa.ip_address } :=
  process_registration_store route_result ha fa mn
    (add_nonce registration fa.nonce_fa) hc

theorem re_register_ok (route_result : Bool) (mn : MobileNode)
    (fa : ForeignAgent) (registry : HARegistry) (orig_ha : HomeAgent)
    (horig : dictLookup registry mn.original_ha = some orig_ha)
    (hauth : mn.temp_identity
      = some (generate_hash (mn.identity ++ mn.nonce_mn))) :
    (re_register_with_original_ha route_result mn fa registry).registry
      = dictInsert registry mn.original_ha
          { orig_ha with bindings := (dictInsert orig_ha.bindings mn.identity
              { temp_identity := mn.temp_identity,
                shared_key_mn_fa := generate_hmac orig_ha.shared_key_mn_ha
                  (mn.nonce_mn ++ orig_ha.nonce_ha ++ fa.identity),
                nonce_ha := orig_ha.nonce_ha, coa := mn.coa,
                foreign_agent := fa.ip_address }) } := by
  simp only [re_register_with_original_ha, horig]
  simp [handle_registration_request, add_nonce, process_registration, hauth]

theorem create_mesh_lookup_aux (keys : List String) (rest : HARegistry)
    (k : String) (ha : HomeAgent)
    (h : dictLookup (rest.map (fun p =>
        (p.1, { p.2 with peers := keys.filter (fun q => q ≠ p.1) }))) k
      = some ha) :
    ha.peers = keys.filter (fun q => q ≠ k) := by
  induction rest with
  | nil => simp [dictLookup] at h
  | cons hd tl ih =>
    obtain ⟨k₀, v⟩ := hd
    by_cases hk : k₀ = k
    · subst hk
      simp only [List.map_cons, dictLookup, eq_self_iff_true, if_true,
        Option.some.injEq] at h
      subst h
      rfl
    · simp only [List.map_cons, dictLookup, if_neg hk] at h
      exact ih h

theorem dictKeys_create_mesh (registry : HARegistry) :
    dictKeys (create_mesh_topology registry) = dictKeys registry := by
  simp [create_mesh_topology, dictKeys, List.map_map, Function.comp]

theorem map_mesh_twice (keys : List String) (l : HARegistry) :
    (l.map (fun p =>
        (p.1, { p.2 with peers := keys.filter (fun q => q ≠ p.1) }))).map
      (fun p => (p.1, { p.2 with peers := keys.filter (fun q => q ≠ p.1) }))
    = l.map (fun p =>
        (p.1, { p.2 with peers := keys.filter (fun q => q ≠ p.1) })) := by
  induction l with
  | nil => rfl
  | cons hd tl ih =>
    simp only [List.map_cons, ih]

theorem create_mesh_idem (registry : HARegistry) :
    create_mesh_topology (create_mesh_topology registry)
      = create_mesh_topology registry := by
  show (create_mesh_topology registry).map (fun p =>
      (p.1, { p.2 with
        peers := (dictKeys (create_mesh_topology registry)).filter
          (fun q => q ≠ p.1) }))
    = create_mesh_topology registry
  rw [dictKeys_create_mesh]
  exact map_mesh_twice (dictKeys registry) registry

/-- C1: for every node identity, nonce and temporary identity supplied with
one registration request, `process_registration` succeeds iff the request's
temporary identity equals `hash(identity ++ nonce)` computed with the nonce
carried in that same request; on any mismatch it signals the authentication
failure and the authority's bindings map is unchanged (no binding is created
or overwritten). -/
theorem registration_auth_soundness (route_result : Bool) (ha : HomeAgent)
    (fa : ForeignAgent) (mn : MobileNode) (registration : Registration) :
    (regSuccess (process_registration route_result ha fa mn registration).2 = true
      ↔ registration.temp_identity
          = some (generate_hash (mn.identity ++ registration.nonce_mn))) ∧
    (registration.temp_identity
        ≠ some (generate_hash (mn.identity ++ registration.nonce_mn)) →
      (process_registration route_result ha fa mn registration).1 = ha ∧
      (process_registration route_result ha fa mn registration).2
        = Except.error "Invalid registration data") := by
  by_cases hc : registration.temp_identity
      = some (generate_hash (mn.identity ++ registration.nonce_mn))
  · constructor
    · simp [process_registration, hc, regSuccess]
    · intro hcon
      exact absurd hc hcon
  · constructor
    · simp [process_registration, hc, regSuccess]
    · intro hcon
      rw [process_registration_mismatch route_result ha fa mn registration hc]
      exact ⟨rfl, rfl⟩

/-- Witness for C1 at the fixture inputs: a request whose temporary-identity
slot does not match the digest is rejected and the authority is unchanged. -/
theorem registration_auth_soundness_witness :
    (process_registration true haW faW mnW regBadW).1 = haW ∧
    (process_registration true haW faW mnW regBadW).2
      = Except.error "Invalid registration data" :=
  (registration_auth_soundness true haW faW mnW regBadW).2
    (by simp [regBadW, regGoodW])

/-- C2: every successful registration stores a binding whose session key is
`mac(sharedSecret, nonce ++ homeNonce ++ relayIdentity)` — the node's nonce
from the request, the processing authority's own nonce, the forwarding
relay's identity — and whose five fields are exactly the temporary identity
and COA taken from the request, the derived session key, the authority's own
nonce, and the relay's address; the binding is stored under the node's
identity. -/
theorem registration_binding_contents (route_result : Bool) (ha : HomeAgent)
    (fa : ForeignAgent) (mn : MobileNode) (registration : Registration)
    (b : Binding) (r : Bool)
    (h : (process_registration route_result ha fa mn registration).2
      = Except.ok (b, r)) :
    b.shared_key_mn_fa = generate_hmac ha.shared_key_mn_ha
        (registration.nonce_mn ++ ha.nonce_ha ++ fa.identity) ∧
    b.temp_identity = registration.temp_identity ∧
    b.nonce_ha = ha.nonce_ha ∧
    b.coa = registration.coa ∧
    b.foreign_agent = fa.ip_address ∧
    dictLookup (process_registration route_result ha fa mn registration).1.bindings
      mn.identity = some b := by
  obtain ⟨hc, hb, hr, hha⟩ :=
    process_registration_ok_elim route_result ha fa mn registration b r h
  subst hb
  refine ⟨rfl, rfl, rfl, rfl, rfl, ?_⟩
  rw [hha]
  exact dictLookup_insert_self _ _ _

/-- Witness for C2 at the fixture inputs. -/
theorem registration_binding_contents_witness :
    bW.shared_key_mn_fa = generate_hmac haW.shared_key_mn_ha
        (regGoodW.nonce_mn ++ haW.nonce_ha ++ faW.identity) ∧
    bW.temp_identity = regGoodW.temp_identity ∧
    bW.nonce_ha = haW.nonce_ha ∧
    bW.coa = regGoodW.coa ∧
    bW.foreign_agent = faW.ip_address ∧
    dictLookup (process_registration true haW faW mnW regGoodW).1.bindings
      mnW.identity = some bW :=
  registration_binding_contents true haW faW mnW regGoodW bW true rfl

/-- C9: after a successful validation the stored authority state and the
success status are independent of the route-installation outcome; the outcome
is only carried through (logged), never branched on, so a route failure
neither removes the stored binding nor turns the result into a failure. -/
theorem route_result_independence (route_result route_result' : Bool)
    (ha : HomeAgent) (fa : ForeignAgent) (mn : MobileNode)
    (registration : Registration) :
    (process_registration route_result ha fa mn registration).1
      = (process_registration route_result' ha fa mn registration).1 ∧
    regSuccess (process_registration route_result ha fa mn registration).2
      = regSuccess (process_registration route_result' ha fa mn registration).2 ∧
    (∀ (b : Binding) (r : Bool),
      (process_registration route_result ha fa mn registration).2
          = Except.ok (b, r) →
      r = route_result ∧
      (process_registration route_result' ha fa mn registration).2
        = Except.ok (b, route_result')) := by
  by_cases hc : registration.temp_identity
      = some (generate_hash (mn.identity ++ registration.nonce_mn))
  · refine ⟨?_, ?_, ?_⟩
    · simp [process_registration, hc]
    · simp [process_registration, hc, regSuccess]
    · intro b r h
      obtain ⟨_, hb, hr, _⟩ :=
        process_registration_ok_elim route_result ha fa mn registration b r h
      subst hb
      subst hr
      refine ⟨rfl, ?_⟩
      simp [process_registration, hc]
  · rw [process_registration_mismatch route_result ha fa mn registration hc,
        process_registration_mismatch route_result' ha fa mn registration hc]
    refine ⟨rfl, rfl, ?_⟩
    intro b r h
    simp at h

/-- Witness for C9: the same request processed with a failed route
installation stores the same binding and still succeeds. -/
theorem route_result_independence_witness :
    (process_registration false haW faW mnW regGoodW).2
      = Except.ok (bW, false) :=
  ((route_result_independence true false haW faW mnW regGoodW).2.2 bW true rfl).2

/-- C10: every authority is constructed with the constant shared secret
`"shared_secret_mn_ha"`; consequently the derived session key depends only on
the node's nonce, the authority's own nonce and the relay's identity, and two
authorities with equal own-nonces derive the same key for the same request
and relay. -/
theorem shared_secret_uniform :
    (∀ (identity ip : String) (g : NonceGen),
        ((mkHomeAgent identity ip g).1).shared_key_mn_ha
          = "shared_secret_mn_ha") ∧
    (∀ (ha₁ ha₂ : HomeAgent) (rt₁ rt₂ : Bool) (fa : ForeignAgent)
        (mn : MobileNode) (registration : Registration)
        (b₁ b₂ : Binding) (r₁ r₂ : Bool),
        ha₁.shared_key_mn_ha = "shared_secret_mn_ha" →
        ha₂.shared_key_mn_ha = "shared_secret_mn_ha" →
        ha₁.nonce_ha = ha₂.nonce_ha →
        (process_registration rt₁ ha₁ fa mn registration).2
          = Except.ok (b₁, r₁) →
        (process_registration rt₂ ha₂ fa mn registration).2
          = Except.ok (b₂, r₂) →
        b₁.shared_key_mn_fa = b₂.shared_key_mn_fa ∧
        b₁.shared_key_mn_fa = generate_hmac "shared_secret_mn_ha"
          (registration.nonce_mn ++ ha₁.nonce_ha ++ fa.identity)) := by
  constructor
  · intro identity ip g
    rfl
  · intro ha₁ ha₂ rt₁ rt₂ fa mn registration b₁ b₂ r₁ r₂ hs₁ hs₂ hn h₁ h₂
    obtain ⟨_, hb₁, _, _⟩ :=
      process_registration_ok_elim rt₁ ha₁ fa mn registration b₁ r₁ h₁
    obtain ⟨_, hb₂, _, _⟩ :=
      process_registration_ok_elim rt₂ ha₂ fa mn registration b₂ r₂ h₂
    subst hb₁
    subst hb₂
    constructor
    · simp [hs₁, hs₂, hn]
    · simp [hs₁]

/-- Witness for C10 at the fixture inputs. -/
theorem shared_secret_uniform_witness :
    bW.shared_key_mn_fa = bW.shared_key_mn_fa ∧
    bW.shared_key_mn_fa = generate_hmac "shared_secret_mn_ha"
      (regGoodW.nonce_mn ++ haW.nonce_ha ++ faW.identity) :=
  shared_secret_uniform.2 haW haW true true faW mnW regGoodW bW bW true true
    rfl rfl rfl rfl rfl

/-- C4: across any sequence of assign/release calls on the shared pool the
held addresses stay pairwise distinct — one pool serves all three entity
classes, so this covers collisions both within one class and across classes —
and the assign loop only ever returns an address not currently held, so an
address becomes reassignable only after it is released. -/
theorem address_pool_uniqueness :
    (∀ (assigned : List String) (ops : List PoolOp),
        assigned.Nodup → (run_ops assigned ops).Nodup) ∧
    (∀ (network_id : String) (assigned : List String) (draws : List Nat)
        (ip : String) (assigned' : List String),
        assign_ip_loop network_id assigned draws = some (ip, assigned') →
        ip ∉ assigned ∧ assigned' = ip :: assigned) :=
  ⟨fun assigned ops h => run_ops_nodup ops assigned h,
   fun network_id assigned draws ip assigned' h =>
     assign_ip_loop_fresh network_id assigned draws ip assigned' h⟩

/-- Witness for C4: a concrete assign/release run keeps the pool
duplicate-free, and a concrete retry run that first hits a held address
returns a fresh one and marks it held. -/
theorem address_pool_uniqueness_witness :
    (run_ops ["10.1.0.3"]
        [PoolOp.assign "mn" [3, 4], PoolOp.release "10.1.0.3"]).Nodup ∧
    ("10.1.0.4" ∉ ["10.1.0.3"] ∧
      ["10.1.0.4", "10.1.0.3"] = "10.1.0.4" :: ["10.1.0.3"]) :=
  ⟨address_pool_uniqueness.1 ["10.1.0.3"]
      [PoolOp.assign "mn" [3, 4], PoolOp.release "10.1.0.3"] (by decide),
   address_pool_uniqueness.2 "10.1.0" ["10.1.0.3"] [3, 4] "10.1.0.4"
      ["10.1.0.4", "10.1.0.3"] rfl⟩

/-- C5 (code defect): when every address of the `"mn"` class space is already
held, the `assign_ip` retry loop never returns — every finite prefix of the
random-draw stream leaves it spinning.  The code has no pool-exhausted error
path at all; it does not fail, it fails to terminate. -/
theorem assign_ip_exhausted_never_returns (assigned : List String)
    (draws : List Nat)
    (hfull : ∀ k, k < 255 → mk_ip "10.1.0" k ∈ assigned) :
    assign_ip_loop "10.1.0" assigned draws = none := by
  induction draws with
  | nil => rfl
  | cons d ds ih =>
    have hmem := hfull (d % 255) (Nat.mod_lt d (by norm_num))
    simp [assign_ip_loop, hmem, ih]

/-- Witness for C5: with all 255 `"mn"`-class addresses held, concrete retry
draws all fail to exit the loop. -/
theorem assign_ip_exhausted_witness :
    assign_ip_loop "10.1.0" ((List.range 255).map (mk_ip "10.1.0"))
      [0, 77, 254] = none :=
  assign_ip_exhausted_never_returns ((List.range 255).map (mk_ip "10.1.0"))
    [0, 77, 254]
    (fun k hk => List.mem_map.mpr ⟨k, List.mem_range.mpr hk, rfl⟩)

/-- C8: a successful registration or re-registration for a node already bound
at an authority replaces the binding under the same identity key — the key
set is unchanged and stays duplicate-free and the entry stored under the key
is the new binding — and the binding-deletion step of the move orchestration
preserves key uniqueness; so each (authority, node identity) pair has at most
one binding. -/
theorem binding_replacement_unique (route_result : Bool) (ha : HomeAgent)
    (fa : ForeignAgent) (mn : MobileNode) (registration : Registration)
    (hnodup : (dictKeys ha.bindings).Nodup) :
    (dictKeys (process_registration route_result ha fa mn registration).1.bindings).Nodup ∧
    (mn.identity ∈ dictKeys ha.bindings →
      dictKeys (process_registration route_result ha fa mn registration).1.bindings
        = dictKeys ha.bindings) ∧
    (∀ (b : Binding) (r : Bool),
      (process_registration route_result ha fa mn registration).2
          = Except.ok (b, r) →
      dictLookup
        (process_registration route_result ha fa mn registration).1.bindings
        mn.identity = some b) ∧
    (∀ (d : List (String × Binding)) (k : String),
      (dictKeys d).Nodup → (dictKeys (dictErase d k)).Nodup) := by
  by_cases hc : registration.temp_identity
      = some (generate_hash (mn.identity ++ registration.nonce_mn))
  · refine ⟨?_, ?_, ?_, fun d k hd => dictKeys_erase_nodup d k hd⟩
    · simp only [process_registration, if_pos hc]
      exact dictKeys_insert_nodup _ _ _ hnodup
    · intro hmem
      simp only [process_registration, if_pos hc]
      exact dictKeys_insert_mem _ _ _ hmem
    · intro b r h
      obtain ⟨_, hb, _, hha⟩ :=
        process_registration_ok_elim route_result ha fa mn registration b r h
      rw [hha]
      exact dictLookup_insert_self _ _ _
  · rw [process_registration_mismatch route_result ha fa mn registration hc]
    refine ⟨hnodup, fun _ => rfl, ?_, fun d k hd => dictKeys_erase_nodup d k hd⟩
    intro b r h
    simp at h

/-- Witness for C8 at the fixture inputs. -/
theorem binding_replacement_unique_witness :
    dictLookup (process_registration true haW faW mnW regGoodW).1.bindings
      mnW.identity = some bW :=
  ((binding_replacement_unique true haW faW mnW regGoodW
      (by simp [haW, mkHomeAgent, dictKeys])).2.2.1) bW true rfl

/-- C7: after a rebuild the peer relation is a full mesh over the registry's
authorities — any two distinct registered authorities peer with each other
(so peering is symmetric), no authority peers with itself — and rebuilding
again over the same registry yields the same topology. -/
theorem mesh_full_symmetric_irreflexive (registry : HARegistry) :
    (∀ (a b : String) (hA hB : HomeAgent),
        a ∈ dictKeys registry → b ∈ dictKeys registry → a ≠ b →
        dictLookup (create_mesh_topology registry) a = some hA →
        dictLookup (create_mesh_topology registry) b = some hB →
        ((b ∈ hA.peers ↔ a ∈ hB.peers) ∧ b ∈ hA.peers)) ∧
    (∀ (a : String) (hA : HomeAgent),
        dictLookup (create_mesh_topology registry) a = some hA →
        a ∉ hA.peers) ∧
    create_mesh_topology (create_mesh_topology registry)
      = create_mesh_topology registry := by
  refine ⟨?_, ?_, create_mesh_idem registry⟩
  · intro a b hA hB hamem hbmem hab hlA hlB
    have hpA : hA.peers = (dictKeys registry).filter (fun q => q ≠ a) :=
      create_mesh_lookup_aux (dictKeys registry) registry a hA hlA
    have hpB : hB.peers = (dictKeys registry).filter (fun q => q ≠ b) :=
      create_mesh_lookup_aux (dictKeys registry) registry b hB hlB
    rw [hpA, hpB]
    constructor
    · simp [List.mem_filter, hamem, hbmem, hab, Ne.symm hab]
    · simp [List.mem_filter, hbmem, Ne.symm hab]
  · intro a hA hlA
    have hpA : hA.peers = (dictKeys registry).filter (fun q => q ≠ a) :=
      create_mesh_lookup_aux (dictKeys registry) registry a hA hlA
    rw [hpA]
    simp [List.mem_filter]

/-- Witness for C7 on a concrete two-authority registry. -/
theorem mesh_full_symmetric_irreflexive_witness :
    ("HA456" ∈ hAW'.peers ↔ "HA123" ∈ hBW'.peers) ∧ "HA456" ∈ hAW'.peers :=
  (mesh_full_symmetric_irreflexive registryW).1 "HA123" "HA456" hAW' hBW'
    (by decide) (by decide) (by decide) rfl rfl

/-- C3: after a registered node moves to a new network, the node's original
home authority holds a binding for the node's identity whose COA is the newly
acquired one, whichever authority the node is now attached to; and the move
issues both a `"registration"` request to the new authority and a
`"re-registration"` request to the original authority, each carrying the same
new COA. -/
theorem mobility_preserves_home_reachability (g : NonceGen) (new_coa : String)
    (route_re route_new : Bool) (mn : MobileNode) (new_ha_id : String)
    (fa : ForeignAgent) (registry : HARegistry) (orig_ha : HomeAgent)
    (horig : dictLookup registry mn.original_ha = some orig_ha) :
    (∃ (ha' : HomeAgent) (b : Binding),
        dictLookup (move_to_new_network g new_coa route_re route_new mn
            new_ha_id fa registry).registry mn.original_ha = some ha' ∧
        dictLookup ha'.bindings mn.identity = some b ∧
        b.coa = new_coa) ∧
    (move_to_new_network g new_coa route_re route_new mn new_ha_id fa
        registry).reRequest.request_type = "re-registration" ∧
    (move_to_new_network g new_coa route_re route_new mn new_ha_id fa
        registry).reRequest.target = mn.original_ha ∧
    (move_to_new_network g new_coa route_re route_new mn new_ha_id fa
        registry).reRequest.coa = new_coa ∧
    (move_to_new_network g new_coa route_re route_new mn new_ha_id fa
        registry).request.request_type = "registration" ∧
    (move_to_new_network g new_coa route_re route_new mn new_ha_id fa
        registry).request.target = new_ha_id ∧
    (move_to_new_network g new_coa route_re route_new mn new_ha_id fa
        registry).request.coa = new_coa := by
  refine ⟨?_, rfl, rfl, rfl, rfl, rfl, rfl⟩
  have hre := re_register_ok route_re
    ({ mn with
        coa := new_coa, home_agent := new_ha_id,
        nonce_mn := (generate_nonce g).1,
        temp_identity := some (generate_hash (mn.identity ++ (generate_nonce g).1)) })
    fa registry orig_ha horig rfl
  simp only [move_to_new_network]
  simp only [hre]
  by_cases heq : new_ha_id = mn.original_ha
  · subst heq
    simp only [dictLookup_insert_self]
    exact ⟨_, _, rfl, handle_registration_store route_new fa _ _ _ rfl, rfl⟩
  · simp only [dictLookup_insert_ne _ _ _ _ heq]
    cases hlk : dictLookup registry new_ha_id with
    | none =>
      exact ⟨_, _, dictLookup_insert_self _ _ _, dictLookup_insert_self _ _ _, rfl⟩
    | some newHA =>
      exact ⟨_, _,
        (dictLookup_insert_ne _ _ _ _ (fun hh => heq hh.symm)).trans
          (dictLookup_insert_self _ _ _),
        dictLookup_insert_self _ _ _, rfl⟩

/-- Witness for C3: moving the fixture node (whose original authority is
`HA123`) to `HA456` leaves a binding with the new COA at `HA123`. -/
theorem mobility_preserves_home_reachability_witness :
    (∃ (ha' : HomeAgent) (b : Binding),
        dictLookup (move_to_new_network ⟨5⟩ "10.1.0.9" true true mnW "HA456"
            faW registryW).registry mnW.original_ha = some ha' ∧
        dictLookup ha'.bindings mnW.identity = some b ∧
        b.coa = "10.1.0.9") ∧
    (move_to_new_network ⟨5⟩ "10.1.0.9" true true mnW "HA456" faW
        registryW).reRequest.request_type = "re-registration" ∧
    (move_to_new_network ⟨5⟩ "10.1.0.9" true true mnW "HA456" faW
        registryW).reRequest.target = mnW.original_ha ∧
    (move_to_new_network ⟨5⟩ "10.1.0.9" true true mnW "HA456" faW
        registryW).reRequest.coa = "10.1.0.9" ∧
    (move_to_new_network ⟨5⟩ "10.1.0.9" true true mnW "HA456" faW
        registryW).request.request_type = "registration" ∧
    (move_to_new_network ⟨5⟩ "10.1.0.9" true true mnW "HA456" faW
        registryW).request.target = "HA456" ∧
    (move_to_new_network ⟨5⟩ "10.1.0.9" true true mnW "HA456" faW
        registryW).request.coa = "10.1.0.9" :=
  mobility_preserves_home_reachability ⟨5⟩ "10.1.0.9" true true mnW "HA456"
    faW registryW haW rfl

/-- C6 counterexample: one foreign agent stamps two distinct registration
requests with the same stored nonce, refuting that two distinct attempts
forwarded by the same relay carry different relay nonces. -/
theorem relay_nonce_reuse_counterexample :
    regW1 ≠ regW2 ∧
    (add_nonce regW1 faW.nonce_fa).nonce = some faW.nonce_fa ∧
    (add_nonce regW2 faW.nonce_fa).nonce = some faW.nonce_fa :=
  ⟨by decide, rfl, rfl⟩

/-- C6 (amended): the node's nonce is drawn fresh at construction and once
per move — distinct supply draws differ, so two successive moves of one node
carry distinct node nonces, though the two requests issued within a single
move share that one draw — while the foreign relay draws its nonce once at
construction and stamps every forwarded request with that same stored
nonce. -/
theorem nonce_generation_discipline :
    (∀ (fa : ForeignAgent) (registration : Registration),
        (add_nonce registration fa.nonce_fa).nonce = some fa.nonce_fa) ∧
    (∀ g₁ g₂ : NonceGen, g₁ ≠ g₂ →
        (generate_nonce g₁).1 ≠ (generate_nonce g₂).1) ∧
    (∀ (g : NonceGen) (coa₁ coa₂ : String) (r₁ r₂ r₃ r₄ : Bool)
        (mn : MobileNode) (id₁ id₂ : String) (fa₁ fa₂ : ForeignAgent)
        (registry₁ registry₂ : HARegistry),
        (move_to_new_network g coa₁ r₁ r₂ mn id₁ fa₁ registry₁).reRequest.nonce_mn
          = (move_to_new_network g coa₁ r₁ r₂ mn id₁ fa₁
              registry₁).request.nonce_mn ∧
        (move_to_new_network g coa₁ r₁ r₂ mn id₁ fa₁ registry₁).mn.nonce_mn
          ≠ (move_to_new_network
              (move_to_new_network g coa₁ r₁ r₂ mn id₁ fa₁ registry₁).gen
              coa₂ r₃ r₄
              (move_to_new_network g coa₁ r₁ r₂ mn id₁ fa₁ registry₁).mn
              id₂ fa₂ registry₂).mn.nonce_mn) := by
  refine ⟨fun fa registration => rfl, ?_, ?_⟩
  · intro g₁ g₂ hne h
    exact hne (generate_nonce_injective g₁ g₂ h)
  · intro g coa₁ coa₂ r₁ r₂ r₃ r₄ mn id₁ id₂ fa₁ fa₂ registry₁ registry₂
    refine ⟨rfl, ?_⟩
    intro h
    have hg : g = (generate_nonce g).2 :=
      generate_nonce_injective g (generate_nonce g).2 h
    cases g with
    | mk c =>
      have hc := congrArg NonceGen.counter hg
      simp [generate_nonce] at hc

/-- Witness for C6 (amended): concrete distinct supplies yield distinct
tokens, and the relay stamp at the fixture inputs. -/
theorem nonce_generation_discipline_witness :
    (add_nonce regW1 faW.nonce_fa).nonce = some faW.nonce_fa ∧
    (generate_nonce ⟨0⟩).1 ≠ (generate_nonce ⟨1⟩).1 :=
  ⟨nonce_generation_discipline.1 faW regW1,
   nonce_generation_discipline.2.1 ⟨0⟩ ⟨1⟩ (by decide)⟩

end MobileNet
